import Mathlib

/-!
Verification development for the hbase-mongo-benchmark repository.

The Python scripts under `scripts/` are shallowly embedded here:
pure numeric code over Python floats is modelled over `ℚ` (the claims
checked are exact-arithmetic order/algebra facts), stateful code is
modelled by explicit state passing, and the effectful entry points are
modelled as functions producing explicit effect traces.
-/

namespace Scripts

/-! ## Statistics aggregator (scripts/benchmark.py, `BenchmarkResult`) -/

/-- Mean of a latency sample: `statistics.mean(latencies_ms)` = sum / n.
(Python raises on an empty sample; here the empty case yields junk `0 / 0 = 0`
and every claim about the mean assumes a non-empty sample.) -/
def mean (xs : List ℚ) : ℚ := xs.sum / (xs.length : ℚ)

/-- `min(latencies_ms)`: the least element of a non-empty list
(junk value 0 on the empty list, where Python raises). -/
def minList : List ℚ → ℚ
  | [] => 0
  | [x] => x
  | x :: y :: t => Min.min x (minList (y :: t))

/-- `max(latencies_ms)`: the greatest element of a non-empty list
(junk value 0 on the empty list, where Python raises). -/
def maxList : List ℚ → ℚ
  | [] => 0
  | [x] => x
  | x :: y :: t => Max.max x (maxList (y :: t))

/-- The linear-interpolation step of `np.percentile`: on a sorted sample `s`
at virtual index `h`, with `i = ⌊h⌋` and `g = h - i`, the value is
`s[i] + g * (s[min (i+1) (n-1)] - s[i])` (the clamp to `n - 1` covers the
endpoint `h = n - 1`, where `g = 0`). -/
def interpAt (s : List ℚ) (h : ℚ) : ℚ :=
  let i : ℕ := (⌊h⌋).toNat
  let lo := s.getD i 0
  let hi := s.getD (Min.min (i + 1) (s.length - 1)) 0
  lo + (h - (i : ℚ)) * (hi - lo)

/-- `np.percentile(a, p)` with the default linear-interpolation method,
evaluated on an already sorted sample `s` of length `n`: the virtual index is
`h = (n - 1) * p / 100`, and the result interpolates between the order
statistics bracketing `h`. -/
def percentileSorted (s : List ℚ) (p : ℚ) : ℚ :=
  interpAt s (((s.length : ℚ) - 1) * p / 100)

/-- `np.percentile(xs, p)`: sorts the sample, then linearly interpolates
between order statistics. (`np.percentile` raises on an empty sample; the
claims assume a non-empty one.) -/
def percentile (xs : List ℚ) (p : ℚ) : ℚ :=
  percentileSorted (List.insertionSort (· ≤ ·) xs) p

/-- Bessel-corrected sample variance
`sum((x - mean)^2 for x in xs) / (n - 1)`, the square of
`statistics.stdev(xs)`. Only meaningful for `n ≥ 2`, matching its guarded
use in `BenchmarkResult.std`. -/
def sampleVariance (xs : List ℚ) : ℚ :=
  (xs.map (fun x => (x - mean xs) ^ 2)).sum / ((xs.length : ℚ) - 1)

/-- `statistics.stdev(xs)`: the Bessel-corrected sample standard deviation,
the square root of `sampleVariance`. -/
noncomputable def stdev (xs : List ℚ) : ℝ :=
  Real.sqrt ((sampleVariance xs : ℚ) : ℝ)

/-- `BenchmarkResult` dataclass from scripts/benchmark.py: a (test, store)
pair with its ordered per-invocation latency sample (ms) and iteration
count. -/
structure BenchmarkResult where
  test_name : String
  database : String
  iterations : ℕ
  latencies_ms : List ℚ
deriving DecidableEq, Repr

/-- `BenchmarkResult.p50 = np.percentile(latencies_ms, 50)`. -/
def BenchmarkResult.p50 (r : BenchmarkResult) : ℚ := percentile r.latencies_ms 50

/-- `BenchmarkResult.p95 = np.percentile(latencies_ms, 95)`. -/
def BenchmarkResult.p95 (r : BenchmarkResult) : ℚ := percentile r.latencies_ms 95

/-- `BenchmarkResult.p99 = np.percentile(latencies_ms, 99)`. -/
def BenchmarkResult.p99 (r : BenchmarkResult) : ℚ := percentile r.latencies_ms 99

/-- `BenchmarkResult.mean = statistics.mean(latencies_ms)`. -/
def BenchmarkResult.mean (r : BenchmarkResult) : ℚ := Scripts.mean r.latencies_ms

/-- `BenchmarkResult.std = statistics.stdev(latencies_ms) if len > 1 else 0`. -/
noncomputable def BenchmarkResult.std (r : BenchmarkResult) : ℝ :=
  if 1 < r.latencies_ms.length then stdev r.latencies_ms else 0

/-- `BenchmarkResult.min_latency = min(latencies_ms)`. -/
def BenchmarkResult.min_latency (r : BenchmarkResult) : ℚ := minList r.latencies_ms

/-- `BenchmarkResult.max_latency = max(latencies_ms)`. -/
def BenchmarkResult.max_latency (r : BenchmarkResult) : ℚ := maxList r.latencies_ms

/-- `BenchmarkResult.throughput`:
`total_time = sum(latencies_ms) / 1000; iterations / total_time if total_time > 0 else 0`. -/
def BenchmarkResult.throughput (r : BenchmarkResult) : ℚ :=
  let total_time := r.latencies_ms.sum / 1000
  if 0 < total_time then (r.iterations : ℚ) / total_time else 0

/-! ## Benchmark driver (scripts/benchmark.py, `run_benchmark` /
`run_all_benchmarks`)

A timed operation (the parameterless `func` closure handed to
`run_benchmark`) is modelled as a state transformer `σ → σ × ℚ` returning
the successor state of the store/closure and the elapsed wall-clock
milliseconds `(end - start) * 1000` of that invocation. -/

/-- The warmup loop of `run_benchmark`: execute `func` `w` times, discarding
results. -/
def warmupIter {σ : Type} (func : σ → σ × ℚ) : σ → ℕ → σ
  | s, 0 => s
  | s, w + 1 => warmupIter func (func s).1 w

/-- The timed loop of `run_benchmark`: execute `func` `n` times, appending
each invocation's elapsed milliseconds to the latency list in order. -/
def timedIter {σ : Type} (func : σ → σ × ℚ) : σ → ℕ → σ × List ℚ
  | s, 0 => (s, [])
  | s, n + 1 =>
    let sl := func s
    let rest := timedIter func sl.1 n
    (rest.1, sl.2 :: rest.2)

/-- `run_benchmark(name, database, func, iterations)`: warmup invocations
(count `warmup`, results discarded), then `iterations` timed invocations,
packaged as a `BenchmarkResult`. Returns the final store state as well. -/
def run_benchmark {σ : Type} (name database : String) (func : σ → σ × ℚ)
    (s : σ) (iterations warmup : ℕ) : BenchmarkResult × σ :=
  let s1 := warmupIter func s warmup
  let r := timedIter func s1 iterations
  (⟨name, database, iterations, r.2⟩, r.1)

/-- The state of a connected `MongoDBBenchmark` handle that gates which
tests run: its sampled document ids, and its non-id field names.
`_load_sample_keys` assigns `self.fields` only inside `if sample:` — when
`find_one()` returned a document. On an empty collection the attribute is
never assigned, so reading `mongo.fields` later raises `AttributeError`;
that unset state is `fields = none`. -/
structure MongoHandle where
  sample_keys : List String
  fields : Option (List String)

/-- The fields of a connected `HBaseBenchmark` handle that gate which tests
run: its sampled row keys. -/
structure HBaseHandle where
  sample_keys : List String

/-- One gated test of `run_all_benchmarks`: when the guard holds, run the
benchmark and emit its result; otherwise skip it and leave the store state
unchanged. -/
def gatedRun {σ : Type} (gate : Bool) (name database : String)
    (func : σ → σ × ℚ) (s : σ) (iterations warmup : ℕ) :
    List BenchmarkResult × σ :=
  if gate then
    let rs := run_benchmark name database func s iterations warmup
    ([rs.1], rs.2)
  else ([], s)

/-- The ways `run_all_benchmarks` terminates without returning results:
the explicit `sys.exit(1)` when neither store is reachable, and the
uncaught `AttributeError` raised at test 5 by `mongo.fields` when that
attribute was never assigned (MongoDB connected to an empty collection). -/
inductive RunAbort
  | exitNoDatabases
  | attributeError
deriving DecidableEq, Repr

/-- `run_all_benchmarks`, with the two store connections given as
`Option` handles (`none` = the connection attempt raised) and each store's
per-test operation given abstractly by test name. Mirrors the source's
control flow: if both connections failed, `sys.exit(1)` fires before any
benchmark is run; otherwise the five tests run in order, each gated on
handle presence (and on non-empty `sample_keys` for point queries / prefix
scans), with the source's per-test iteration counts. At test 5 the guard
`if mongo and mongo.fields:` reads the `fields` attribute: when the handle
is present but the attribute was never assigned, this raises
`AttributeError`, the exception propagates uncaught, and no result list is
produced. -/
def run_all_benchmarks {σm σh : Type} (mongo : Option MongoHandle)
    (hbase : Option HBaseHandle) (mongoFunc : String → σm → σm × ℚ)
    (hbaseFunc : String → σh → σh × ℚ) (sm : σm) (sh : σh)
    (numIterations warmup : ℕ) : Except RunAbort (List BenchmarkResult) :=
  if mongo.isNone && hbase.isNone then Except.error RunAbort.exitNoDatabases else
    let mHasKeys := mongo.elim false (fun m => !m.sample_keys.isEmpty)
    let hHasKeys := hbase.elim false (fun h => !h.sample_keys.isEmpty)
    let t1m := gatedRun mHasKeys "point_query" "MongoDB"
      (mongoFunc "point_query") sm numIterations warmup
    let t1h := gatedRun hHasKeys "point_query" "HBase"
      (hbaseFunc "point_query") sh numIterations warmup
    let t2m := gatedRun mongo.isSome "range_scan_100" "MongoDB"
      (mongoFunc "range_scan_100") t1m.2 numIterations warmup
    let t2h := gatedRun hbase.isSome "range_scan_100" "HBase"
      (hbaseFunc "range_scan_100") t1h.2 numIterations warmup
    let t3m := gatedRun mongo.isSome "range_scan_1000" "MongoDB"
      (mongoFunc "range_scan_1000") t2m.2 50 warmup
    let t3h := gatedRun hbase.isSome "range_scan_1000" "HBase"
      (hbaseFunc "range_scan_1000") t2h.2 50 warmup
    let t4m := gatedRun mongo.isSome "count_all" "MongoDB"
      (mongoFunc "count_all") t3m.2 20 warmup
    let t4h := gatedRun hbase.isSome "count_all" "HBase"
      (hbaseFunc "count_all") t3h.2 5 warmup
    let t5h := gatedRun hHasKeys "prefix_scan" "HBase"
      (hbaseFunc "prefix_scan") t4h.2 50 warmup
    match mongo with
    | some m =>
      match m.fields with
      | none => Except.error RunAbort.attributeError
      | some fl =>
        let t5m := gatedRun (!fl.isEmpty) "aggregation" "MongoDB"
          (mongoFunc "aggregation") t4m.2 50 warmup
        Except.ok (t1m.1 ++ t1h.1 ++ t2m.1 ++ t2h.1 ++ t3m.1 ++ t3h.1 ++
          t4m.1 ++ t4h.1 ++ t5m.1 ++ t5h.1)
    | none =>
      Except.ok (t1m.1 ++ t1h.1 ++ t2m.1 ++ t2h.1 ++ t3m.1 ++ t3h.1 ++
        t4m.1 ++ t4h.1 ++ t5h.1)

/-! ## Comparison logic (scripts/analyze_results.py, `save_comparison_csv`)

The winner / percentage-difference computation for one `(test, metric)`
cell. The two store values are `Option ℚ` (`none` = that store's row is
absent); the result is the winner label and the signed percentage
difference (with the source's explicit zero-denominator guards). The same
selection logic, minus the guards and string formatting, underlies
`create_comparison_table`. -/
def csvWinnerDiff (metric_key : String) (mongo_val hbase_val : Option ℚ) :
    String × Option ℚ :=
  match mongo_val, hbase_val with
  | some m, some h =>
    if metric_key = "throughput_ops" then
      -- Higher is better
      if h < m then
        ("MongoDB", some (if h ≠ 0 then (m - h) / h * 100 else 0))
      else if m < h then
        ("HBase", some (if m ≠ 0 then (h - m) / m * 100 else 0))
      else ("Tie", some 0)
    else
      -- Lower is better (latency)
      if m < h then
        ("MongoDB", some (if h ≠ 0 then -((h - m) / h * 100) else 0))
      else if h < m then
        ("HBase", some (if m ≠ 0 then -((m - h) / m * 100) else 0))
      else ("Tie", some 0)
  | _, _ => ("", none)

/-! ## Effect-trace models of the entry points

For the control-flow / resource claims, each entry point is modelled as a
function from its external outcomes (which connections succeed, whether a
phase raises) to the ordered list of externally visible effects it
performs. An uncaught exception terminates the trace at the point it is
raised, exactly as an uncaught Python exception would. -/

/-- Externally visible effects of the import / benchmark entry points. -/
inductive Eff
  | connectMongo
  | connectHBase
  | importData
  | closeMongo
  | closeHBase
  | exitFatal
  | runTest (name : String) (database : String)
deriving DecidableEq, Repr

/-- `get_parquet_files` (identical in both importers):`sys.exit(1)` when the
directory holds no parquet files, otherwise the sorted file list. -/
def get_parquet_files (files : List String) : Except Unit (List String) :=
  if files.isEmpty then Except.error ()
  else Except.ok (List.insertionSort (· ≤ ·) files)

/-- `main` of scripts/import_to_mongodb.py as an effect trace: find input
files (fatal exit, touching nothing, when there are none), connect (fatal
exit on failure), then `try: import ... finally: client.close()` — the close
runs on both the success path and the path where the import raises; on the
latter the exception then propagates (`False` = the run did not complete
normally). -/
def mongo_import_main (files : List String) (connectOk importRaises : Bool) :
    List Eff × Bool :=
  match get_parquet_files files with
  | Except.error _ => ([Eff.exitFatal], false)
  | Except.ok _ =>
    if connectOk then
      if importRaises then ([Eff.connectMongo, Eff.importData, Eff.closeMongo], false)
      else ([Eff.connectMongo, Eff.importData, Eff.closeMongo], true)
    else ([Eff.connectMongo, Eff.exitFatal], false)

/-- `main` of scripts/import_to_hbase.py as an effect trace: same structure
as the MongoDB importer. -/
def hbase_import_main (files : List String) (connectOk importRaises : Bool) :
    List Eff × Bool :=
  match get_parquet_files files with
  | Except.error _ => ([Eff.exitFatal], false)
  | Except.ok _ =>
    if connectOk then
      if importRaises then ([Eff.connectHBase, Eff.importData, Eff.closeHBase], false)
      else ([Eff.connectHBase, Eff.importData, Eff.closeHBase], true)
    else ([Eff.connectHBase, Eff.exitFatal], false)

/-- The connect / test / cleanup skeleton of `run_all_benchmarks` as an
effect trace. The test section (whose operations are external store calls)
is abstracted as its own trace `testTrace` plus a flag `testRaises`; the
source's `mongo.close()` / `hbase.close()` calls at the end are NOT inside
a `try/finally`, so when the test section raises, the exception propagates
and the close calls never execute. -/
def run_all_benchmarks_trace (mongoOk hbaseOk : Bool) (testTrace : List Eff)
    (testRaises : Bool) : List Eff × Bool :=
  if !mongoOk && !hbaseOk then ([Eff.exitFatal], false)
  else if testRaises then (testTrace, false)
  else (testTrace ++ (if mongoOk then [Eff.closeMongo] else []) ++
    (if hbaseOk then [Eff.closeHBase] else []), true)

/-! ## Analysis entry point (scripts/analyze_results.py, `main`) -/

/-- Effects of the analysis entry point. -/
inductive AEff
  | printTable
  | latencyChart
  | throughputChart
  | chartWarning
  | summaryReport
  | rawCsv
  | comparisonCsv
deriving DecidableEq, Repr

/-- The chart-generation section of `analyze_results.main`: both chart
calls sit in one `try`; an exception from either is caught and turned into
a printed warning (and when the first chart raises, the second is never
attempted). -/
def chartSection (latChartRaises thrChartRaises : Bool) : List AEff :=
  if latChartRaises then [AEff.chartWarning]
  else if thrChartRaises then [AEff.latencyChart, AEff.chartWarning]
  else [AEff.latencyChart, AEff.throughputChart]

/-- `main` of scripts/analyze_results.py as an effect trace: print the
comparison table, attempt the charts (failures caught, warning only), then
unconditionally write the markdown summary and the two CSV exports. -/
def analyze_main (latChartRaises thrChartRaises : Bool) : List AEff :=
  AEff.printTable :: chartSection latChartRaises thrChartRaises ++
    [AEff.summaryReport, AEff.rawCsv, AEff.comparisonCsv]

/-! ### Order-statistics helper lemmas -/

lemma getD_eq_get (l : List ℚ) (i : ℕ) (h : i < l.length) :
    l.getD i 0 = l.get ⟨i, h⟩ := by
  simp [List.getD_eq_getElem?_getD, List.getElem?_eq_getElem h]

lemma getD_mem (l : List ℚ) {i : ℕ} (h : i < l.length) : l.getD i 0 ∈ l := by
  rw [getD_eq_get l i h]
  exact List.get_mem l i h

lemma sorted_getD_mono (s : List ℚ) (hs : List.Sorted (· ≤ ·) s) {i j : ℕ}
    (hij : i ≤ j) (hj : j < s.length) : s.getD i 0 ≤ s.getD j 0 := by
  have hi : i < s.length := lt_of_le_of_lt hij hj
  rw [getD_eq_get s i hi, getD_eq_get s j hj]
  exact hs.rel_get_of_le (by simpa using hij)

lemma le_maxList : ∀ (xs : List ℚ), ∀ x ∈ xs, x ≤ maxList xs
  | [], x, hx => by simp at hx
  | [a], x, hx => by simp_all [maxList]
  | a :: b :: u, x, hx => by
    rcases List.mem_cons.mp hx with rfl | hx
    · simp [maxList]
    · calc x ≤ maxList (b :: u) := le_maxList (b :: u) x hx
        _ ≤ maxList (a :: b :: u) := by simp [maxList]

lemma maxList_mem : ∀ (xs : List ℚ), xs ≠ [] → maxList xs ∈ xs
  | [], hne => absurd rfl hne
  | [a], _ => by simp [maxList]
  | a :: b :: u, _ => by
    rcases max_cases a (maxList (b :: u)) with ⟨h, _⟩ | ⟨h, _⟩
    · simp [maxList, h]
    · have := maxList_mem (b :: u) (by simp)
      simp only [maxList, h]
      exact List.mem_cons_of_mem a this

lemma minList_le : ∀ (xs : List ℚ), ∀ x ∈ xs, minList xs ≤ x
  | [], x, hx => by simp at hx
  | [a], x, hx => by simp_all [minList]
  | a :: b :: u, x, hx => by
    rcases List.mem_cons.mp hx with rfl | hx
    · simp [minList]
    · calc minList (a :: b :: u) ≤ minList (b :: u) := by simp [minList]
        _ ≤ x := minList_le (b :: u) x hx

lemma minList_mem : ∀ (xs : List ℚ), xs ≠ [] → minList xs ∈ xs
  | [], hne => absurd rfl hne
  | [a], _ => by simp [minList]
  | a :: b :: u, _ => by
    rcases min_cases a (minList (b :: u)) with ⟨h, _⟩ | ⟨h, _⟩
    · simp [minList, h]
    · have := minList_mem (b :: u) (by simp)
      simp only [minList, h]
      exact List.mem_cons_of_mem a this

lemma maxList_perm {l₁ l₂ : List ℚ} (h : l₁.Perm l₂) (hne : l₁ ≠ []) :
    maxList l₁ = maxList l₂ := by
  have hne₂ : l₂ ≠ [] := by
    intro hnil
    exact hne (List.eq_nil_of_length_eq_zero (by simp [h.length_eq, hnil]))
  exact le_antisymm
    (le_maxList l₂ _ (h.mem_iff.mp (maxList_mem l₁ hne)))
    (le_maxList l₁ _ (h.mem_iff.mpr (maxList_mem l₂ hne₂)))

lemma minList_perm {l₁ l₂ : List ℚ} (h : l₁.Perm l₂) (hne : l₁ ≠ []) :
    minList l₁ = minList l₂ := by
  have hne₂ : l₂ ≠ [] := by
    intro hnil
    exact hne (List.eq_nil_of_length_eq_zero (by simp [h.length_eq, hnil]))
  exact le_antisymm
    (minList_le l₁ _ (h.mem_iff.mpr (minList_mem l₂ hne₂)))
    (minList_le l₂ _ (h.mem_iff.mp (minList_mem l₁ hne)))

lemma sorted_getD_last_eq_maxList (s : List ℚ) (hs : List.Sorted (· ≤ ·) s)
    (hne : s ≠ []) : s.getD (s.length - 1) 0 = maxList s := by
  have hlen : 0 < s.length := List.length_pos.mpr hne
  have hlt : s.length - 1 < s.length := Nat.sub_lt hlen one_pos
  refine le_antisymm (le_maxList s _ (getD_mem s hlt)) ?_
  obtain ⟨k, hkeq⟩ := List.mem_iff_get.mp (maxList_mem s hne)
  rw [← hkeq, getD_eq_get s _ hlt]
  refine hs.rel_get_of_le (Fin.le_def.mpr ?_)
  have hk := k.isLt
  simp only []
  omega

lemma floor_toNat_le {n : ℕ} {h : ℚ} (hn : 1 ≤ n) (hle : h ≤ (n : ℚ) - 1) :
    (⌊h⌋).toNat ≤ n - 1 := by
  have hcast : ((n : ℚ) - 1) = ((n - 1 : ℕ) : ℚ) := by
    push_cast [Nat.cast_sub hn]
    ring
  have hfl := Int.floor_mono (hle.trans_eq hcast)
  rw [Int.floor_natCast] at hfl
  exact Int.toNat_le.mpr hfl

lemma floor_toNat_cast {h : ℚ} (hh : 0 ≤ h) :
    (((⌊h⌋).toNat : ℕ) : ℚ) = ((⌊h⌋ : ℤ) : ℚ) := by
  have := Int.toNat_of_nonneg (Int.floor_nonneg.mpr hh)
  exact_mod_cast this

/-- Interpolation bounds: for a sorted non-empty sample and a virtual index
`h` in range, the interpolated value lies between the two order statistics
it interpolates. -/
lemma interpAt_bounds (s : List ℚ) (hs : List.Sorted (· ≤ ·) s)
    (hne : s ≠ []) {h : ℚ} (hh0 : 0 ≤ h) (hle : h ≤ (s.length : ℚ) - 1) :
    s.getD ((⌊h⌋).toNat) 0 ≤ interpAt s h ∧
    interpAt s h ≤ s.getD (Min.min ((⌊h⌋).toNat + 1) (s.length - 1)) 0 := by
  have hn : 1 ≤ s.length := List.length_pos.mpr hne
  have hile : (⌊h⌋).toNat ≤ s.length - 1 := floor_toNat_le hn hle
  have hmin_lt : Min.min ((⌊h⌋).toNat + 1) (s.length - 1) < s.length :=
    lt_of_le_of_lt (min_le_right _ _) (by omega)
  have hd : s.getD ((⌊h⌋).toNat) 0 ≤ s.getD (Min.min ((⌊h⌋).toNat + 1) (s.length - 1)) 0 :=
    sorted_getD_mono s hs (le_min (by omega) hile) hmin_lt
  have hg0 : 0 ≤ h - (((⌊h⌋).toNat : ℕ) : ℚ) := by
    rw [floor_toNat_cast hh0]
    linarith [Int.floor_le h]
  have hg1 : h - (((⌊h⌋).toNat : ℕ) : ℚ) ≤ 1 := by
    rw [floor_toNat_cast hh0]
    linarith [Int.lt_floor_add_one h]
  constructor
  · have := mul_nonneg hg0 (by linarith :
      (0 : ℚ) ≤ s.getD (Min.min ((⌊h⌋).toNat + 1) (s.length - 1)) 0 - s.getD ((⌊h⌋).toNat) 0)
    simp only [interpAt]
    linarith
  · have := mul_le_mul_of_nonneg_right hg1 (by linarith :
      (0 : ℚ) ≤ s.getD (Min.min ((⌊h⌋).toNat + 1) (s.length - 1)) 0 - s.getD ((⌊h⌋).toNat) 0)
    simp only [interpAt]
    linarith

/-- The interpolated value is monotone in the virtual index, over a
sorted non-empty sample. -/
lemma interpAt_mono (s : List ℚ) (hs : List.Sorted (· ≤ ·) s)
    (hne : s ≠ []) {h₁ h₂ : ℚ} (h10 : 0 ≤ h₁) (h12 : h₁ ≤ h₂)
    (h2le : h₂ ≤ (s.length : ℚ) - 1) :
    interpAt s h₁ ≤ interpAt s h₂ := by
  have hn : 1 ≤ s.length := List.length_pos.mpr hne
  have h20 : 0 ≤ h₂ := le_trans h10 h12
  have h1le : h₁ ≤ (s.length : ℚ) - 1 := le_trans h12 h2le
  have hi12 : (⌊h₁⌋).toNat ≤ (⌊h₂⌋).toNat := Int.toNat_le_toNat (Int.floor_mono h12)
  have hi2le : (⌊h₂⌋).toNat ≤ s.length - 1 := floor_toNat_le hn h2le
  rcases eq_or_lt_of_le hi12 with heq | hlt
  · -- the two virtual indices share the same floor: same segment, slope ≥ 0
    have hi1le : (⌊h₁⌋).toNat ≤ s.length - 1 := floor_toNat_le hn h1le
    have hmin_lt : Min.min ((⌊h₁⌋).toNat + 1) (s.length - 1) < s.length :=
      lt_of_le_of_lt (min_le_right _ _) (by omega)
    have hd : s.getD ((⌊h₁⌋).toNat) 0 ≤
        s.getD (Min.min ((⌊h₁⌋).toNat + 1) (s.length - 1)) 0 :=
      sorted_getD_mono s hs (le_min (by omega) hi1le) hmin_lt
    simp only [interpAt, ← heq]
    have hg : h₁ - (((⌊h₁⌋).toNat : ℕ) : ℚ) ≤ h₂ - (((⌊h₁⌋).toNat : ℕ) : ℚ) := by linarith
    have := mul_le_mul_of_nonneg_right hg (by linarith :
      (0 : ℚ) ≤ s.getD (Min.min ((⌊h₁⌋).toNat + 1) (s.length - 1)) 0 - s.getD ((⌊h₁⌋).toNat) 0)
    linarith
  · -- distinct segments: go up through the order statistics between them
    have hstep : s.getD (Min.min ((⌊h₁⌋).toNat + 1) (s.length - 1)) 0 ≤
        s.getD ((⌊h₂⌋).toNat) 0 :=
      sorted_getD_mono s hs (le_trans (min_le_left _ _) hlt) (by omega)
    exact le_trans (le_trans (interpAt_bounds s hs hne h10 h1le).2 hstep)
      (interpAt_bounds s hs hne h20 h2le).1

lemma percentileSorted_mono (s : List ℚ) (hs : List.Sorted (· ≤ ·) s)
    (hne : s ≠ []) {p q : ℚ} (hp0 : 0 ≤ p) (hpq : p ≤ q) (hq : q ≤ 100) :
    percentileSorted s p ≤ percentileSorted s q := by
  have hn : 1 ≤ s.length := List.length_pos.mpr hne
  have h10 : 0 ≤ (s.length : ℚ) - 1 := by
    have : (1 : ℚ) ≤ (s.length : ℚ) := by exact_mod_cast hn
    linarith
  apply interpAt_mono s hs hne
  · exact div_nonneg (mul_nonneg h10 hp0) (by norm_num)
  · have := mul_le_mul_of_nonneg_left hpq h10
    linarith
  · have := mul_le_mul_of_nonneg_left hq h10
    linarith

lemma percentileSorted_le_last (s : List ℚ) (hs : List.Sorted (· ≤ ·) s)
    (hne : s ≠ []) {p : ℚ} (hp0 : 0 ≤ p) (hp100 : p ≤ 100) :
    percentileSorted s p ≤ s.getD (s.length - 1) 0 := by
  have hn : 1 ≤ s.length := List.length_pos.mpr hne
  have h10 : 0 ≤ (s.length : ℚ) - 1 := by
    have : (1 : ℚ) ≤ (s.length : ℚ) := by exact_mod_cast hn
    linarith
  have hh0 : 0 ≤ ((s.length : ℚ) - 1) * p / 100 :=
    div_nonneg (mul_nonneg h10 hp0) (by norm_num)
  have hhle : ((s.length : ℚ) - 1) * p / 100 ≤ (s.length : ℚ) - 1 := by
    have := mul_le_mul_of_nonneg_left hp100 h10
    linarith
  exact le_trans (interpAt_bounds s hs hne hh0 hhle).2
    (sorted_getD_mono s hs (min_le_right _ _) (by omega))

lemma mean_le_maxList (xs : List ℚ) (hne : xs ≠ []) : mean xs ≤ maxList xs := by
  have hlen : 0 < xs.length := List.length_pos.mpr hne
  have hlenq : (0 : ℚ) < (xs.length : ℚ) := by exact_mod_cast hlen
  have hsum : xs.sum ≤ xs.length • maxList xs := List.sum_le_card_nsmul xs _ (le_maxList xs)
  rw [nsmul_eq_mul] at hsum
  rw [mean, div_le_iff₀ hlenq, mul_comm]
  exact hsum

lemma minList_le_mean (xs : List ℚ) (hne : xs ≠ []) : minList xs ≤ mean xs := by
  have hlen : 0 < xs.length := List.length_pos.mpr hne
  have hlenq : (0 : ℚ) < (xs.length : ℚ) := by exact_mod_cast hlen
  have hsum : xs.length • minList xs ≤ xs.sum := List.card_nsmul_le_sum xs _ (minList_le xs)
  rw [nsmul_eq_mul] at hsum
  rw [mean, le_div_iff₀ hlenq, mul_comm]
  exact hsum

lemma sorted_of_sort (xs : List ℚ) :
    List.Sorted (· ≤ ·) (List.insertionSort (· ≤ ·) xs) :=
  List.sorted_insertionSort (· ≤ ·) xs

lemma sort_ne_nil {xs : List ℚ} (hne : xs ≠ []) :
    List.insertionSort (· ≤ ·) xs ≠ [] := by
  intro hnil
  have hlen := (List.perm_insertionSort (· ≤ ·) xs).length_eq
  rw [hnil] at hlen
  exact hne (List.eq_nil_of_length_eq_zero hlen.symm)

lemma timedIter_length {σ : Type} (func : σ → σ × ℚ) :
    ∀ (s : σ) (n : ℕ), ((timedIter func s n).2).length = n
  | _, 0 => rfl
  | s, n + 1 => by
    simp [timedIter, timedIter_length func _ n]

lemma gatedRun_database {σ : Type} (gate : Bool) (name database : String)
    (func : σ → σ × ℚ) (s : σ) (iterations warmup : ℕ) :
    ∀ r ∈ (gatedRun gate name database func s iterations warmup).1,
      r.database = database := by
  cases gate <;> simp [gatedRun, run_benchmark]

/-! ## Claim theorems -/

/-- C1: for every `BenchmarkResult` (its latencies are elapsed times, hence
nonnegative), the derived throughput equals the iteration count divided by
`sum(latencies_ms) / 1000`, and is 0 — never a division error — whenever
that denominator is 0. -/
theorem c1_throughput_formula (r : BenchmarkResult)
    (hnn : ∀ x ∈ r.latencies_ms, 0 ≤ x) :
    (r.latencies_ms.sum / 1000 = 0 → r.throughput = 0) ∧
    (r.latencies_ms.sum / 1000 ≠ 0 →
      r.throughput = (r.iterations : ℚ) / (r.latencies_ms.sum / 1000)) := by
  have hsum : 0 ≤ r.latencies_ms.sum := List.sum_nonneg hnn
  constructor
  · intro h0
    simp only [BenchmarkResult.throughput]
    rw [h0]
    norm_num
  · intro hne
    have hpos : 0 < r.latencies_ms.sum / 1000 :=
      lt_of_le_of_ne (div_nonneg hsum (by norm_num)) (Ne.symm hne)
    simp only [BenchmarkResult.throughput]
    rw [if_pos hpos]

/-- C1 witness: an all-zero latency sample yields throughput 0. -/
theorem c1_throughput_formula_witness :
    (⟨"point_query", "MongoDB", 5, [0, 0, 0]⟩ : BenchmarkResult).throughput = 0 :=
  (c1_throughput_formula _ (by simp)).1 (by simp)

/-- C4: the standard deviation is 0 for any sample with fewer than two
elements, 0 for any constant sample, and for samples of size ≥ 2 it is the
Bessel-corrected sample standard deviation. -/
theorem c4_std_semantics (r : BenchmarkResult) :
    (r.latencies_ms.length < 2 → r.std = 0) ∧
    (∀ c : ℚ, (∀ x ∈ r.latencies_ms, x = c) → r.std = 0) ∧
    (1 < r.latencies_ms.length →
      r.std = Real.sqrt ((sampleVariance r.latencies_ms : ℚ) : ℝ)) := by
  refine ⟨fun hlt => ?_, fun c hc => ?_, fun hl => ?_⟩
  · simp only [BenchmarkResult.std]
    rw [if_neg (by omega)]
  · by_cases hl : 1 < r.latencies_ms.length
    · simp only [BenchmarkResult.std, stdev]
      rw [if_pos hl]
      suffices hv : sampleVariance r.latencies_ms = 0 by
        rw [hv]
        simp
      have hlen : 0 < r.latencies_ms.length := by omega
      have hlenq : ((r.latencies_ms.length : ℚ)) ≠ 0 := by
        exact_mod_cast Nat.pos_iff_ne_zero.mp hlen
      have hmean : mean r.latencies_ms = c := by
        have hrep := List.eq_replicate_of_mem hc
        rw [mean, hrep, List.sum_replicate, List.length_replicate, nsmul_eq_mul]
        exact mul_div_cancel_left₀ c hlenq
      have hzero : ∀ y ∈ r.latencies_ms.map (fun x => (x - mean r.latencies_ms) ^ 2), y = 0 := by
        intro y hy
        obtain ⟨x, hx, rfl⟩ := List.mem_map.mp hy
        rw [hmean, hc x hx]
        ring
      rw [sampleVariance, List.sum_eq_zero hzero, zero_div]
    · simp only [BenchmarkResult.std]
      rw [if_neg hl]
  · simp only [BenchmarkResult.std, stdev]
    rw [if_pos hl]

/-- C4 witness: size-1 sample and constant sample both give std 0; a
2-element sample takes the Bessel-corrected branch. -/
theorem c4_std_semantics_witness :
    (⟨"t", "MongoDB", 1, [7]⟩ : BenchmarkResult).std = 0 ∧
    (⟨"t", "MongoDB", 3, [5, 5, 5]⟩ : BenchmarkResult).std = 0 ∧
    (⟨"t", "MongoDB", 2, [1, 3]⟩ : BenchmarkResult).std =
      Real.sqrt ((sampleVariance [1, 3] : ℚ) : ℝ) :=
  ⟨(c4_std_semantics _).1 (by decide),
   (c4_std_semantics _).2.1 5 (by decide),
   (c4_std_semantics _).2.2 (by decide)⟩

/-- C5: a benchmark run of `iterations = n` with warmup count `w` produces
a `BenchmarkResult` whose latency list has length exactly `n`, whose stored
iteration count is `n`, and whose measurements are exactly those of the
timed loop run from the state reached after the `w` warmup invocations
(the warmups are executed but contribute no measurement). -/
theorem c5_latency_count_invariant {σ : Type} (name database : String)
    (func : σ → σ × ℚ) (s : σ) (iterations warmup : ℕ) :
    (run_benchmark name database func s iterations warmup).1.latencies_ms.length
      = iterations ∧
    (run_benchmark name database func s iterations warmup).1.iterations
      = iterations ∧
    (run_benchmark name database func s iterations warmup).1.latencies_ms
      = (timedIter func (warmupIter func s warmup) iterations).2 :=
  ⟨timedIter_length func _ iterations, rfl, rfl⟩

/-- C7: with zero input batch files, either importer exits fatally without
touching any store: the trace is exactly the fatal exit, with no connect
effect and no data-modifying effect. -/
theorem c7_empty_input_fatal (connectOk importRaises : Bool) :
    mongo_import_main [] connectOk importRaises = ([Eff.exitFatal], false) ∧
    hbase_import_main [] connectOk importRaises = ([Eff.exitFatal], false) ∧
    Eff.connectMongo ∉ (mongo_import_main [] connectOk importRaises).1 ∧
    Eff.importData ∉ (mongo_import_main [] connectOk importRaises).1 ∧
    Eff.connectHBase ∉ (hbase_import_main [] connectOk importRaises).1 ∧
    Eff.importData ∉ (hbase_import_main [] connectOk importRaises).1 := by
  refine ⟨rfl, rfl, ?_, ?_, ?_, ?_⟩ <;>
    simp [mongo_import_main, hbase_import_main, get_parquet_files]

/-- C9: whether or not chart generation raises, the analysis entry point
still emits the markdown summary and both CSV exports (and they come after
the chart attempt); a chart failure only adds a warning. -/
theorem c9_chart_failure_degrades (latChartRaises thrChartRaises : Bool) :
    AEff.summaryReport ∈ analyze_main latChartRaises thrChartRaises ∧
    AEff.rawCsv ∈ analyze_main latChartRaises thrChartRaises ∧
    AEff.comparisonCsv ∈ analyze_main latChartRaises thrChartRaises ∧
    (∀ b, AEff.chartWarning ∈ analyze_main true b) ∧
    AEff.chartWarning ∈ analyze_main latChartRaises true ∧
    (∃ pre, analyze_main latChartRaises thrChartRaises =
      pre ++ [AEff.summaryReport, AEff.rawCsv, AEff.comparisonCsv]) := by
  cases latChartRaises <;> cases thrChartRaises <;>
    exact ⟨by decide, by decide, by decide, fun b => by cases b <;> decide,
      by decide, ⟨_, rfl⟩⟩

/-- C10: in the comparison-CSV computation, a zero losing-side value never
reaches the division: the guard emits difference 0 instead. -/
theorem c10_zero_denominator_guard (m h : ℚ) :
    (0 < m → csvWinnerDiff "throughput_ops" (some m) (some 0) =
      ("MongoDB", some 0)) ∧
    (0 < h → csvWinnerDiff "throughput_ops" (some 0) (some h) =
      ("HBase", some 0)) ∧
    (∀ key, key ≠ "throughput_ops" →
      (m < 0 → csvWinnerDiff key (some m) (some 0) = ("MongoDB", some 0)) ∧
      (h < 0 → csvWinnerDiff key (some 0) (some h) = ("HBase", some 0))) := by
  refine ⟨fun hm => ?_, fun hh => ?_, fun key hkey => ⟨fun hm => ?_, fun hh => ?_⟩⟩
  · simp [csvWinnerDiff, hm]
  · simp [csvWinnerDiff, hh, not_lt_of_gt hh]
  · simp [csvWinnerDiff, hkey, hm, not_lt_of_gt hm]
  · simp [csvWinnerDiff, hkey, hh, not_lt_of_gt hh]

/-- C10 witness: throughput 7 vs 0 and latency −1 vs 0 both emit a 0
difference rather than dividing by the zero loser. -/
theorem c10_zero_denominator_guard_witness :
    csvWinnerDiff "throughput_ops" (some 7) (some 0) = ("MongoDB", some 0) ∧
    csvWinnerDiff "p50_ms" (some 0) (some (-1)) = ("HBase", some 0) :=
  ⟨(c10_zero_denominator_guard 7 3).1 (by norm_num),
   ((c10_zero_denominator_guard 3 (-1)).2.2 "p50_ms" (by decide)).2 (by norm_num)⟩

/-- C2: per-(test, metric) winner logic when both values are present: for
throughput the strictly higher value wins with a positive percentage of the
winner's lead relative to the loser; for any latency metric (in the source
every metric key other than `throughput_ops`, in particular p50/p95/p99/mean)
the strictly lower value wins with a negative percentage of the gap relative
to the loser; exact ties give "Tie" and 0%. Percentages are stated for
nonzero losers (the degenerate zero-loser guard is claim C10). -/
theorem c2_winner_and_percentage (m h : ℚ) :
    (h < m → h ≠ 0 → csvWinnerDiff "throughput_ops" (some m) (some h) =
      ("MongoDB", some ((m - h) / h * 100))) ∧
    (m < h → m ≠ 0 → csvWinnerDiff "throughput_ops" (some m) (some h) =
      ("HBase", some ((h - m) / m * 100))) ∧
    (m = h → csvWinnerDiff "throughput_ops" (some m) (some h) = ("Tie", some 0)) ∧
    (0 < h → h < m → 0 < (m - h) / h * 100) ∧
    (∀ key, key ≠ "throughput_ops" →
      (m < h → h ≠ 0 → csvWinnerDiff key (some m) (some h) =
        ("MongoDB", some (-((h - m) / h * 100)))) ∧
      (h < m → m ≠ 0 → csvWinnerDiff key (some m) (some h) =
        ("HBase", some (-((m - h) / m * 100)))) ∧
      (m = h → csvWinnerDiff key (some m) (some h) = ("Tie", some 0)) ∧
      (0 < m → m < h → -((h - m) / h * 100) < 0)) := by
  refine ⟨fun hlt hne => ?_, fun hlt hne => ?_, fun heq => ?_, fun hpos hlt => ?_,
    fun key hkey => ⟨fun hlt hne => ?_, fun hlt hne => ?_, fun heq => ?_,
      fun hpos hlt => ?_⟩⟩
  · simp [csvWinnerDiff, hlt, hne]
  · simp [csvWinnerDiff, hlt, lt_asymm hlt, hne]
  · subst heq
    simp [csvWinnerDiff, lt_irrefl]
  · have hgap : 0 < (m - h) / h := div_pos (by linarith) hpos
    linarith
  · simp [csvWinnerDiff, hkey, hlt, hne]
  · simp [csvWinnerDiff, hkey, hlt, lt_asymm hlt, hne]
  · subst heq
    simp [csvWinnerDiff, hkey, lt_irrefl]
  · have hh : 0 < h := lt_trans hpos hlt
    have hgap : 0 < (h - m) / h := div_pos (by linarith) hh
    linarith

/-- C2 witness: throughput 1000 vs 500 gives the 1000 side +100%; latency
5 ms vs 10 ms gives the 5 ms side −50%; equal values tie at 0%. -/
theorem c2_winner_and_percentage_witness :
    csvWinnerDiff "throughput_ops" (some 1000) (some 500) =
      ("MongoDB", some 100) ∧
    csvWinnerDiff "p50_ms" (some 5) (some 10) = ("MongoDB", some (-50)) ∧
    csvWinnerDiff "mean_ms" (some 4) (some 4) = ("Tie", some 0) := by
  refine ⟨?_, ?_, ?_⟩
  · rw [(c2_winner_and_percentage 1000 500).1 (by norm_num) (by norm_num)]
    norm_num
  · rw [((c2_winner_and_percentage 5 10).2.2.2.2 "p50_ms" (by decide)).1
      (by norm_num) (by norm_num)]
    norm_num
  · exact ((c2_winner_and_percentage 4 4).2.2.2.2 "mean_ms" (by decide)).2.2.1 rfl

/-- C3: for a non-empty latency sample, the derived summary statistics
satisfy p50 ≤ p95 ≤ p99 ≤ max and min ≤ mean ≤ max, with percentiles given
by linear interpolation between order statistics. -/
theorem c3_summary_statistics_order (r : BenchmarkResult)
    (hne : r.latencies_ms ≠ []) :
    r.p50 ≤ r.p95 ∧ r.p95 ≤ r.p99 ∧ r.p99 ≤ r.max_latency ∧
    r.min_latency ≤ r.mean ∧ r.mean ≤ r.max_latency := by
  have hs := sorted_of_sort r.latencies_ms
  have hsne := sort_ne_nil hne
  have hperm := List.perm_insertionSort (· ≤ ·) r.latencies_ms
  refine ⟨?_, ?_, ?_, ?_, ?_⟩
  · exact percentileSorted_mono _ hs hsne (by norm_num) (by norm_num) (by norm_num)
  · exact percentileSorted_mono _ hs hsne (by norm_num) (by norm_num) (by norm_num)
  · have hle := percentileSorted_le_last (List.insertionSort (· ≤ ·) r.latencies_ms)
      hs hsne (by norm_num : (0 : ℚ) ≤ 99) (by norm_num)
    rw [sorted_getD_last_eq_maxList _ hs hsne, maxList_perm hperm hsne] at hle
    exact hle
  · exact minList_le_mean r.latencies_ms hne
  · exact mean_le_maxList r.latencies_ms hne

/-- C3 witness at the sample [3, 1, 2]. -/
theorem c3_summary_statistics_order_witness :
    (⟨"point_query", "MongoDB", 3, [3, 1, 2]⟩ : BenchmarkResult).p50 ≤
      (⟨"point_query", "MongoDB", 3, [3, 1, 2]⟩ : BenchmarkResult).p95 ∧
    (⟨"point_query", "MongoDB", 3, [3, 1, 2]⟩ : BenchmarkResult).p95 ≤
      (⟨"point_query", "MongoDB", 3, [3, 1, 2]⟩ : BenchmarkResult).p99 ∧
    (⟨"point_query", "MongoDB", 3, [3, 1, 2]⟩ : BenchmarkResult).p99 ≤
      (⟨"point_query", "MongoDB", 3, [3, 1, 2]⟩ : BenchmarkResult).max_latency ∧
    (⟨"point_query", "MongoDB", 3, [3, 1, 2]⟩ : BenchmarkResult).min_latency ≤
      (⟨"point_query", "MongoDB", 3, [3, 1, 2]⟩ : BenchmarkResult).mean ∧
    (⟨"point_query", "MongoDB", 3, [3, 1, 2]⟩ : BenchmarkResult).mean ≤
      (⟨"point_query", "MongoDB", 3, [3, 1, 2]⟩ : BenchmarkResult).max_latency :=
  c3_summary_statistics_order _ (by decide)

/-- C8 counterexample: in the benchmark driver, when the test section raises
after the MongoDB connection was successfully established, the close call is
never reached — the handle is NOT closed on this failure path, contradicting
the unconditional-close claim. -/
theorem c8_close_counterexample :
    Eff.closeMongo ∉ (run_all_benchmarks_trace true false
      [Eff.runTest "point_query" "MongoDB"] true).1 := by
  decide

/-- C8 (amended): the importer entry points close their store handle
unconditionally once it is constructed — on both the normal path and the
path where the import raises (`try/finally`); the benchmark driver closes
each connected store's handle when the test section completes without an
exception, but when the test section raises, the exception propagates past
the close calls and no handle is closed. -/
theorem c8_close_semantics :
    (∀ (f : String) (fs : List String) (raised : Bool),
      Eff.closeMongo ∈ (mongo_import_main (f :: fs) true raised).1) ∧
    (∀ (f : String) (fs : List String) (raised : Bool),
      Eff.closeHBase ∈ (hbase_import_main (f :: fs) true raised).1) ∧
    (∀ (hbOk : Bool) (tr : List Eff),
      Eff.closeMongo ∈ (run_all_benchmarks_trace true hbOk tr false).1) ∧
    (∀ (mOk : Bool) (tr : List Eff),
      Eff.closeHBase ∈ (run_all_benchmarks_trace mOk true tr false).1) ∧
    (∀ (mOk hbOk : Bool) (tr : List Eff), Eff.closeMongo ∉ tr →
      Eff.closeMongo ∉ (run_all_benchmarks_trace mOk hbOk tr true).1) := by
  refine ⟨?_, ?_, ?_, ?_, ?_⟩
  · intro f fs raised
    cases raised <;> simp [mongo_import_main, get_parquet_files]
  · intro f fs raised
    cases raised <;> simp [hbase_import_main, get_parquet_files]
  · intro hbOk tr
    cases hbOk <;> simp [run_all_benchmarks_trace]
  · intro mOk tr
    cases mOk <;> simp [run_all_benchmarks_trace]
  · intro mOk hbOk tr htr
    cases mOk <;> cases hbOk <;> simp [run_all_benchmarks_trace, htr]

/-- C8 witness: with an empty abstract test trace, a raising test section
leaves the MongoDB handle unclosed, while a completing one closes it. -/
theorem c8_close_semantics_witness :
    Eff.closeMongo ∉ (run_all_benchmarks_trace true true [] true).1 ∧
    Eff.closeMongo ∈ (run_all_benchmarks_trace true true [] false).1 :=
  ⟨c8_close_semantics.2.2.2.2 true true [] (by decide),
   c8_close_semantics.2.2.1 true []⟩

/-- C6: if both store connections fail, `run_all_benchmarks` exits fatally
— for every possible family of timed operations, so before any timed
operation is attempted; if exactly one connection fails, the run succeeds
with a non-empty partial result set containing only the surviving store's
results. For the MongoDB-only case this holds for every handle whose
`fields` attribute was assigned (i.e. the collection held at least one
document — the state every successful import produces); when that
attribute was never assigned, the source instead crashes with an
`AttributeError` at test 5's `if mongo and mongo.fields:` guard and
produces no result set, which the final conjunct records. -/
theorem c6_partial_connection_handling {σm σh : Type}
    (mongoFunc : String → σm → σm × ℚ) (hbaseFunc : String → σh → σh × ℚ)
    (sm : σm) (sh : σh) (numIterations warmup : ℕ) :
    (run_all_benchmarks none none mongoFunc hbaseFunc sm sh numIterations warmup
      = Except.error RunAbort.exitNoDatabases) ∧
    (∀ keys fl : List String, ∃ l,
      run_all_benchmarks (some ⟨keys, some fl⟩) none mongoFunc hbaseFunc sm sh
        numIterations warmup = Except.ok l ∧ l ≠ [] ∧
        ∀ r ∈ l, r.database = "MongoDB") ∧
    (∀ h : HBaseHandle, ∃ l,
      run_all_benchmarks none (some h) mongoFunc hbaseFunc sm sh numIterations
        warmup = Except.ok l ∧ l ≠ [] ∧ ∀ r ∈ l, r.database = "HBase") ∧
    (∀ (keys : List String) (hbase : Option HBaseHandle),
      run_all_benchmarks (some ⟨keys, none⟩) hbase mongoFunc hbaseFunc sm sh
        numIterations warmup = Except.error RunAbort.attributeError) := by
  refine ⟨rfl, fun keys fl => ⟨_, rfl, ?_, ?_⟩, fun h => ⟨_, rfl, ?_, ?_⟩,
    fun keys hbase => ?_⟩
  · cases hk : keys.isEmpty <;> cases hf : fl.isEmpty <;>
      simp [gatedRun, hk, hf, run_benchmark]
  · intro r hr
    simp only [Option.elim, Option.isSome, Bool.false_and] at hr
    rcases List.mem_append.mp hr with hr | h5
    rcases List.mem_append.mp hr with hr | h4
    rcases List.mem_append.mp hr with hr | h3
    rcases List.mem_append.mp hr with hr | h2
    rcases List.mem_append.mp hr with hr | h1
    rcases List.mem_append.mp hr with hr | h0
    rcases List.mem_append.mp hr with hr | hb
    rcases List.mem_append.mp hr with hr | ha
    rcases List.mem_append.mp hr with hr | h9
    · exact gatedRun_database _ _ _ _ _ _ _ r hr
    · exact absurd h9 (by simp [gatedRun])
    · exact gatedRun_database _ _ _ _ _ _ _ r ha
    · exact absurd hb (by simp [gatedRun])
    · exact gatedRun_database _ _ _ _ _ _ _ r h0
    · exact absurd h1 (by simp [gatedRun])
    · exact gatedRun_database _ _ _ _ _ _ _ r h2
    · exact absurd h3 (by simp [gatedRun])
    · exact gatedRun_database _ _ _ _ _ _ _ r h4
    · exact absurd h5 (by simp [gatedRun])
  · cases hk : h.sample_keys.isEmpty <;> simp [gatedRun, hk, run_benchmark]
  · intro r hr
    simp only [Option.elim, Option.isSome, Bool.false_and] at hr
    rcases List.mem_append.mp hr with hr | h5
    rcases List.mem_append.mp hr with hr | h4
    rcases List.mem_append.mp hr with hr | h3
    rcases List.mem_append.mp hr with hr | h2
    rcases List.mem_append.mp hr with hr | h1
    rcases List.mem_append.mp hr with hr | h0
    rcases List.mem_append.mp hr with hr | hb
    rcases List.mem_append.mp hr with hr | ha
    · exact absurd hr (by simp [gatedRun])
    · exact gatedRun_database _ _ _ _ _ _ _ r ha
    · exact absurd hb (by simp [gatedRun])
    · exact gatedRun_database _ _ _ _ _ _ _ r h0
    · exact absurd h1 (by simp [gatedRun])
    · exact gatedRun_database _ _ _ _ _ _ _ r h2
    · exact absurd h3 (by simp [gatedRun])
    · exact gatedRun_database _ _ _ _ _ _ _ r h4
    · exact gatedRun_database _ _ _ _ _ _ _ r h5
  · rfl

end Scripts
